import Mathlib

/-!
Shallow embedding of the Epimetheus dashboard view-aggregation layer
(`frontend/src/utils/api.js` and the `EpimetheusDashboard` component):
the data model, the channel aggregation (`getChannelsData`), the time-age
formatter, the slack-tag derivation, the history-view derivation and the
revert-identifier selection, together with theorems settling the spec
claims about them.

JavaScript conventions are modelled explicitly: `a || b` on strings uses
truthiness (absent values and the empty string are falsy), `String.replace`
with a plain-string pattern replaces only the first occurrence, and
`Math.floor` division by a positive constant is integer floor division,
which for a positive divisor coincides with Lean `Int` division.
-/

namespace Epimetheus

/-- JS `a || b` where `a` is a possibly-absent string: the empty string and
an absent value are falsy, so both fall through to `b`. -/
def jsStrOr (a : Option String) (b : String) : String :=
  match a with
  | some s => if s = "" then b else s
  | none => b

/-- JS `s.startsWith(pat)`, on the character list so that the kernel can
evaluate it. -/
def jsStartsWith (s pat : String) : Bool :=
  List.isPrefixOf pat.toList s.toList

/-- Splits a character list around the first occurrence of `pat`, returning
the part before and the part after, or `none` when `pat` does not occur. -/
def firstOccSplit (pat : List Char) : List Char → Option (List Char × List Char)
  | [] => if pat = [] then some ([], []) else none
  | c :: rest =>
    if List.isPrefixOf pat (c :: rest) then
      some ([], List.drop pat.length (c :: rest))
    else
      match firstOccSplit pat rest with
      | some (pre, suf) => some (c :: pre, suf)
      | none => none

/-- JS `s.replace(pat, rep)` with a plain-string pattern: only the FIRST
occurrence of `pat` is replaced. -/
def jsReplaceFirst (s pat rep : String) : String :=
  match firstOccSplit pat.toList s.toList with
  | some (pre, suf) => String.mk (pre ++ rep.toList ++ suf)
  | none => s

/-- JS `s.substring(0, n)`: the first `n` characters (the whole string when
it is shorter). -/
def jsSubstringTo (s : String) (n : Nat) : String :=
  String.mk (s.toList.take n)

/-- A remote document record as consumed by `getChannelsData`.  The code
reads `doc.id || doc.doc_id`, `doc.name` and `doc.modified_time`, all of
which may be absent in the loosely-shaped payload.  `modified_time` is
modelled as an epoch-milliseconds timestamp. -/
structure DocumentRecord where
  id : Option String
  doc_id : Option String
  name : Option String
  modified_time : Option Int
deriving DecidableEq

/-- A remote metadata record: `doc_id` (foreign key), optional `name`
override, optional `tags`, optional `description`. -/
structure MetadataRecord where
  doc_id : String
  name : Option String
  tags : Option (List String)
  description : Option String
deriving DecidableEq

/-- The optional `metadata` object of a raw version (`v.metadata?.chars_added`). -/
structure VersionMeta where
  chars_added : Option Int
deriving DecidableEq

/-- A raw version record from the version-history endpoint.  `created_at`
is modelled as the epoch-milliseconds value produced by
`new Date(v.created_at).getTime()`. -/
structure RawVersion where
  version_id : String
  created_at : Int
  metadata : Option VersionMeta
deriving DecidableEq

/-- A view-model version entry built by `getChannelsData`:
`{ version: idx + 1, versionId, timestamp, charsAdded }`. -/
structure VersionEntry where
  version : Nat
  versionId : String
  timestamp : Int
  charsAdded : Int
deriving DecidableEq

/-- The Channel view model returned by `getChannelsData`. -/
structure Channel where
  id : String
  name : String
  status : String
  messageCount : Nat
  lastUpdate : String
  docUrl : String
  actionCount : Nat
  slackChannelId : String
  versions : List VersionEntry
  metadata : MetadataRecord
deriving DecidableEq

/-- Parsed payload of `GET /documents`. -/
structure DocumentsResponse where
  documents : Option (List DocumentRecord)
deriving DecidableEq

/-- Parsed payload of `GET /documents/metadata/all`. -/
structure MetadataResponse where
  documents : Option (List MetadataRecord)
  count : Option Int
deriving DecidableEq

/-- Parsed payload of `GET /versions/{docId}`. -/
structure VersionsResponse where
  versions : Option (List RawVersion)
deriving DecidableEq

/-- The remote environment an aggregation pass runs against: the current
time (`Date.now()`), the outcome of the document-list fetch, the outcome
of the metadata-list fetch, and the outcome of the version-history fetch
for each document id.  An `Except.error` value models a failed request. -/
structure Env where
  now : Int
  documentsResult : Except String DocumentsResponse
  metadataResult : Except String MetadataResponse
  versionHistoryResult : String → Except String VersionsResponse

/-- The empty JS object `{}` substituted when no metadata record exists for
a document id: every field is absent (`doc_id` is modelled as the empty
string). -/
def emptyMetadata : MetadataRecord :=
  { doc_id := "", name := none, tags := none, description := none }

/-- `getDocuments` (api.js): on a failed request the catch block returns
`{ documents: [] }` instead of raising. -/
def getDocuments (result : Except String DocumentsResponse) : DocumentsResponse :=
  match result with
  | .ok r => r
  | .error _ => { documents := some [] }

/-- `getAllMetadata` (api.js): on a failed request the catch block returns
`{ documents: [], count: 0 }` instead of raising. -/
def getAllMetadata (result : Except String MetadataResponse) : MetadataResponse :=
  match result with
  | .ok r => r
  | .error _ => { documents := some [], count := some 0 }

/-- `formatTimeAgo` (api.js) as a function of the elapsed delta in
milliseconds (`Date.now() - date.getTime()`).  Each `Math.floor` division
by a positive constant is `Int` floor division. -/
def formatTimeAgo (deltaMs : Int) : String :=
  let seconds : Int := deltaMs / 1000
  if seconds < 60 then "just now"
  else
    let minutes : Int := seconds / 60
    if minutes < 60 then
      toString minutes ++ " minute" ++ (if minutes ≠ 1 then "s" else "") ++ " ago"
    else
      let hours : Int := minutes / 60
      if hours < 24 then
        toString hours ++ " hour" ++ (if hours ≠ 1 then "s" else "") ++ " ago"
      else
        let days : Int := hours / 24
        toString days ++ " day" ++ (if days ≠ 1 then "s" else "") ++ " ago"

/-- The metadata lookup built by `getChannelsData`:
`metadataList.forEach(meta => { metadataMap[meta.doc_id] = meta })`,
so a later record with the same `doc_id` overwrites an earlier one. -/
def metadataMapOf (metadataList : List MetadataRecord) : String → Option MetadataRecord :=
  metadataList.foldl (fun acc meta k => if k = meta.doc_id then some meta else acc k)
    (fun _ => none)

/-- `doc.id || doc.doc_id`; an absent value is modelled as the empty
string. -/
def resolveDocId (doc : DocumentRecord) : String :=
  jsStrOr doc.id (doc.doc_id.getD "")

/-- The slack-tag derivation of `getChannelsData`:
`metadata.tags?.find(t => t.startsWith('slack:'))`, then
`slackTag.replace('slack:', '')` or the empty string. -/
def slackChannelIdOf (metadata : MetadataRecord) : String :=
  let slackTag := match metadata.tags with
    | some tags => tags.find? (fun t => jsStartsWith t "slack:")
    | none => none
  match slackTag with
  | some t => jsReplaceFirst t "slack:" ""
  | none => ""

/-- Maps a function of the element index and the element over a list,
starting the index at `i` (the `(v, idx)` form of JS `Array.map`). -/
def indexedMapFrom {α β : Type} (f : Nat → α → β) (i : Nat) : List α → List β
  | [] => []
  | a :: as => f i a :: indexedMapFrom f (i + 1) as

/-- The per-document version fetch of `getChannelsData`: on success the raw
versions (or `[]` when the field is absent) are mapped to view entries with
a 1-based positional number; on failure the catch block leaves `versions`
as the empty list and only logs. -/
def versionsOf (fetch : String → Except String VersionsResponse) (docId : String) :
    List VersionEntry :=
  match fetch docId with
  | .ok versionResponse =>
    indexedMapFrom (fun idx v =>
      { version := idx + 1
        versionId := v.version_id
        timestamp := v.created_at
        charsAdded := (v.metadata.bind VersionMeta.chars_added).getD 0 })
      0 (versionResponse.versions.getD [])
  | .error _ => []

/-- The per-document body of `getChannelsData`: combines one document with
its metadata (or `{}`) and its fetched versions into a Channel. -/
def buildChannel (now : Int) (metadataMap : String → Option MetadataRecord)
    (fetch : String → Except String VersionsResponse) (doc : DocumentRecord) : Channel :=
  let docId := resolveDocId doc
  let metadata := (metadataMap docId).getD emptyMetadata
  let versions := versionsOf fetch docId
  { id := docId
    name := jsStrOr metadata.name (jsStrOr doc.name ("Document " ++ jsSubstringTo docId 8))
    status := "active"
    messageCount := 0
    lastUpdate := match doc.modified_time with
      | some t => formatTimeAgo (now - t)
      | none => "never"
    docUrl := "https://docs.google.com/document/d/" ++ docId
    actionCount := versions.length
    slackChannelId := slackChannelIdOf metadata
    versions := versions
    metadata := metadata }

/-- The document list an aggregation pass works on:
`documentsResponse.documents || []` after the soft-degrading fetch. -/
def documentsOf (env : Env) : List DocumentRecord :=
  (getDocuments env.documentsResult).documents.getD []

/-- The metadata list an aggregation pass works on:
`metadataResponse.documents || []` after the soft-degrading fetch. -/
def metadataListOf (env : Env) : List MetadataRecord :=
  (getAllMetadata env.metadataResult).documents.getD []

/-- `getChannelsData` (api.js): one Channel per document, in document-list
order. -/
def getChannelsData (env : Env) : List Channel :=
  List.map (buildChannel env.now (metadataMapOf (metadataListOf env)) env.versionHistoryResult)
    (documentsOf env)

/-- A flattened history entry: a version entry tagged with its owning
document id and name (`{ ...v, documentId: doc.id, documentName: doc.name }`). -/
structure HistoryEntry where
  version : Nat
  versionId : String
  timestamp : Int
  charsAdded : Int
  documentId : String
  documentName : String
deriving DecidableEq

/-- Tags one version entry with its owning document id and name. -/
def tagVersion (doc : Channel) (v : VersionEntry) : HistoryEntry :=
  { version := v.version
    versionId := v.versionId
    timestamp := v.timestamp
    charsAdded := v.charsAdded
    documentId := doc.id
    documentName := doc.name }

/-- The order used by `.sort((a, b) => b.timestamp - a.timestamp)`:
descending by timestamp. -/
def historyDescLe (a b : HistoryEntry) : Bool :=
  decide (b.timestamp ≤ a.timestamp)

/-- The history-view derivation of the dashboard component: filter by the
selected document (or take all), flatten the tagged versions, sort
descending by timestamp (JS sort is stable, modelled by merge sort). -/
def historyView (documents : List Channel) (selectedDocumentForHistory : Option String) :
    List HistoryEntry :=
  let documentsToShow := match selectedDocumentForHistory with
    | some fid => documents.filter (fun (doc : Channel) => doc.id == fid)
    | none => documents
  let allVersions := documentsToShow.flatMap (fun doc => doc.versions.map (tagVersion doc))
  allVersions.mergeSort historyDescLe

/-- `handleRevertVersion` (dashboard component):
`const idToUse = versionId || version.toString()`. -/
def revertIdentifier (version : Nat) (versionId : Option String) : String :=
  jsStrOr versionId (toString version)

/-- The request path built by `revertVersion` for the identifier chosen by
`handleRevertVersion`: `POST /revert/{docId}/{versionId}`. -/
def revertRequestPath (documentId : String) (version : Nat) (versionId : Option String) :
    String :=
  "/revert/" ++ documentId ++ "/" ++ revertIdentifier version versionId

/-- The time-age buckets exactly as the specification states them, over a
non-negative delta in seconds, with flooring division and lower-bound
inclusive buckets. -/
def timeAgoSpec (delta : Nat) : String :=
  if delta < 60 then "just now"
  else if delta < 3600 then
    toString (delta / 60) ++ " minute" ++ (if delta / 60 ≠ 1 then "s" else "") ++ " ago"
  else if delta < 86400 then
    toString (delta / 3600) ++ " hour" ++ (if delta / 3600 ≠ 1 then "s" else "") ++ " ago"
  else
    toString (delta / 86400) ++ " day" ++ (if delta / 86400 ≠ 1 then "s" else "") ++ " ago"

/-- Sample document with an id, a name and no modified time. -/
def sampleDocA : DocumentRecord :=
  { id := some "alpha-0001", doc_id := none, name := some "Alpha Doc", modified_time := none }

/-- Sample document with an id and no own name. -/
def sampleDocB : DocumentRecord :=
  { id := some "beta-0002", doc_id := none, name := none, modified_time := none }

/-- Sample metadata for `sampleDocA`: a name override and a slack tag. -/
def sampleMetaA : MetadataRecord :=
  { doc_id := "alpha-0001", name := some "Alpha Override",
    tags := some ["x", "slack:C123", "y"], description := none }

/-- Sample version fetch where every document succeeds. -/
def sampleRawVersionB : RawVersion :=
  { version_id := "v-b1", created_at := 5000, metadata := some { chars_added := some 12 } }

def sampleFetchOk : String → Except String VersionsResponse := fun docId =>
  if docId = "beta-0002" then Except.ok { versions := some [sampleRawVersionB] }
  else Except.ok { versions := some [] }

/-- Sample version fetch where the fetch for `sampleDocA` fails and the one
for `sampleDocB` returns the same result as `sampleFetchOk`. -/
def sampleFetchAFails : String → Except String VersionsResponse := fun docId =>
  if docId = "beta-0002" then Except.ok { versions := some [sampleRawVersionB] }
  else Except.error "network down"

/-- Sample environment: two documents, metadata for the first, all version
fetches succeeding. -/
def sampleEnv : Env :=
  { now := 0
    documentsResult := Except.ok { documents := some [sampleDocA, sampleDocB] }
    metadataResult := Except.ok { documents := some [sampleMetaA], count := some 1 }
    versionHistoryResult := sampleFetchOk }

/-- Sample environment identical to `sampleEnv` except that the version
fetch for `sampleDocA` fails. -/
def sampleEnvAFails : Env :=
  { now := 0
    documentsResult := Except.ok { documents := some [sampleDocA, sampleDocB] }
    metadataResult := Except.ok { documents := some [sampleMetaA], count := some 1 }
    versionHistoryResult := sampleFetchAFails }

/-- The Channel view-model built for `sampleDocB` by `sampleEnv`. -/
def sampleChannelB : Channel :=
  buildChannel 0 (metadataMapOf [sampleMetaA]) sampleFetchOk sampleDocB

/-- Metadata record with two tags carrying the reserved prefix. -/
def sampleMetaTwoSlack : MetadataRecord :=
  { doc_id := "d1", name := none, tags := some ["slack:A", "slack:B"],
    description := none }

/-- Metadata record whose tags carry no reserved prefix. -/
def sampleMetaNoSlack : MetadataRecord :=
  { doc_id := "d2", name := none, tags := some ["x", "y"], description := none }

/-- Sample history version entries, with timestamps out of order. -/
def sampleVersionW1 : VersionEntry :=
  { version := 1, versionId := "w1", timestamp := 100, charsAdded := 5 }

/-- Second sample history version entry. -/
def sampleVersionW2 : VersionEntry :=
  { version := 2, versionId := "w2", timestamp := 300, charsAdded := 6 }

/-- Third sample history version entry. -/
def sampleVersionW3 : VersionEntry :=
  { version := 3, versionId := "w3", timestamp := 200, charsAdded := 7 }

/-- Sample history channel with three versions. -/
def sampleChannelHist1 : Channel :=
  { id := "h1", name := "Doc One", status := "active", messageCount := 0,
    lastUpdate := "never", docUrl := "u1", actionCount := 3, slackChannelId := "",
    versions := [sampleVersionW1, sampleVersionW2, sampleVersionW3],
    metadata := emptyMetadata }

/-- Sample history channel with no versions. -/
def sampleChannelHist2 : Channel :=
  { id := "h2", name := "Doc Two", status := "active", messageCount := 0,
    lastUpdate := "never", docUrl := "u2", actionCount := 0, slackChannelId := "",
    versions := [], metadata := emptyMetadata }

/-- A falsy optional string (`none` or `some ""`) always falls through in
`a || b`. -/
theorem jsStrOr_falsy {a : Option String} (h : jsStrOr a "" = "") (b : String) :
    jsStrOr a b = b := by
  cases a with
  | none => rfl
  | some u =>
    by_cases hu : u = ""
    · simp [jsStrOr, hu]
    · simp [jsStrOr, hu] at h

/-- The fetched versions of a document depend only on the fetch outcome at
that document id. -/
theorem versionsOf_congr {f g : String → Except String VersionsResponse} {docId : String}
    (h : f docId = g docId) : versionsOf f docId = versionsOf g docId := by
  simp only [versionsOf, h]

/-- A document Channel depends on the version fetch only through the fetch
outcome at its own resolved id. -/
theorem buildChannel_fetch_congr (now : Int) (mm : String → Option MetadataRecord)
    {f g : String → Except String VersionsResponse} (doc : DocumentRecord)
    (h : f (resolveDocId doc) = g (resolveDocId doc)) :
    buildChannel now mm f doc = buildChannel now mm g doc := by
  simp only [buildChannel, versionsOf_congr h]

/-- C5: the time-age formatter is a pure function of the elapsed delta with
flooring division and lower-bound inclusive buckets: below 60 seconds it
yields "just now", then minute, hour and day buckets with the floored
count and singular or plural by that count, exactly as `timeAgoSpec`
states the specification's buckets. -/
theorem c5_formatTimeAgo_buckets (delta : Nat) :
    formatTimeAgo (1000 * (delta : Int)) = timeAgoSpec delta := by
  have hsec : (1000 * (delta : Int)) / 1000 = (delta : Int) := by omega
  have hmin : (delta : Int) / 60 = ((delta / 60 : Nat) : Int) := by omega
  have hhrs : ((delta / 60 : Nat) : Int) / 60 = ((delta / 3600 : Nat) : Int) := by
    have h1 : delta / 60 / 60 = delta / 3600 := by
      rw [Nat.div_div_eq_div_mul]
    omega
  have hdays : ((delta / 3600 : Nat) : Int) / 24 = ((delta / 86400 : Nat) : Int) := by
    have h1 : delta / 3600 / 24 = delta / 86400 := by
      rw [Nat.div_div_eq_div_mul]
    omega
  have hts : ∀ n : Nat, toString ((n : Int)) = toString n := fun n => rfl
  have e1 : ((delta : Int) < 60) ↔ (delta < 60) := by omega
  have e2 : (((delta / 60 : Nat) : Int) < 60) ↔ (delta < 3600) := by omega
  have e3 : (((delta / 3600 : Nat) : Int) < 24) ↔ (delta < 86400) := by omega
  have e4 : (((delta / 60 : Nat) : Int) ≠ 1) ↔ (delta / 60 ≠ 1) := by omega
  have e5 : (((delta / 3600 : Nat) : Int) ≠ 1) ↔ (delta / 3600 ≠ 1) := by omega
  have e6 : (((delta / 86400 : Nat) : Int) ≠ 1) ↔ (delta / 86400 ≠ 1) := by omega
  simp only [formatTimeAgo, timeAgoSpec, hsec, hmin, hhrs, hdays, hts, e1, e2, e3, e4, e5, e6]

/-- C10: for a future timestamp, i.e. a negative elapsed delta, the
time-age formatter returns "just now": the floored negative seconds value
satisfies the first bucket test instead of failing or producing a negative
count. -/
theorem c10_future_delta_just_now (deltaMs : Int) (h : deltaMs < 0) :
    formatTimeAgo deltaMs = "just now" := by
  have hs : deltaMs / 1000 < 60 := by omega
  simp only [formatTimeAgo]
  rw [if_pos hs]

/-- Witness for C10 at the concrete delta of -5000 milliseconds. -/
theorem c10_witness : formatTimeAgo (-5000) = "just now" :=
  c10_future_delta_just_now (-5000) (by norm_num)

/-- C6: a failed document-list fetch degrades the whole aggregation to the
empty Channel sequence, and a failed metadata-list fetch behaves exactly
as an empty metadata collection; both failures are absorbed (the embedded
aggregation is a total function, it has no error outcome). -/
theorem c6_list_fetch_soft_degrade (env : Env) (e1 e2 : String) :
    getChannelsData { env with documentsResult := Except.error e1 } = [] ∧
    getChannelsData { env with metadataResult := Except.error e2 } =
      getChannelsData { env with
        metadataResult := Except.ok { documents := some [], count := some 0 } } :=
  ⟨rfl, rfl⟩

/-- C7: the identifier sent to the revert endpoint is the opaque token
whenever one is present (JS-truthy), and the positional version number
only when no token is available. -/
theorem c7_revert_prefers_token (documentId : String) (version : Nat)
    (versionId : Option String) :
    (∀ s, versionId = some s → s ≠ "" →
      revertIdentifier version versionId = s ∧
      revertRequestPath documentId version versionId =
        "/revert/" ++ documentId ++ "/" ++ s) ∧
    (versionId = none →
      revertIdentifier version versionId = toString version ∧
      revertRequestPath documentId version versionId =
        "/revert/" ++ documentId ++ "/" ++ toString version) := by
  constructor
  · intro s hs hne
    subst hs
    refine ⟨?_, ?_⟩
    · simp [revertIdentifier, jsStrOr, hne]
    · simp [revertRequestPath, revertIdentifier, jsStrOr, hne]
  · intro h
    subst h
    exact ⟨rfl, rfl⟩

/-- Witness for C7: with a token present the token is sent; with no token
the positional number is sent. -/
theorem c7_witness :
    revertIdentifier 3 (some "v-uuid-9") = "v-uuid-9" ∧
    revertRequestPath "alpha-0001" 3 (some "v-uuid-9") =
      "/revert/" ++ "alpha-0001" ++ "/" ++ "v-uuid-9" ∧
    revertIdentifier 3 none = toString 3 := by
  obtain ⟨h1, h2⟩ :=
    (c7_revert_prefers_token "alpha-0001" 3 (some "v-uuid-9")).1 "v-uuid-9" rfl (by decide)
  exact ⟨h1, h2, ((c7_revert_prefers_token "alpha-0001" 3 none).2 rfl).1⟩

/-- C9: every Channel produced by an aggregation pass has `actionCount`
equal to the length of its versions sequence; it is recomputed from the
versions, not carried independently. -/
theorem c9_actionCount_recomputed (env : Env) (ch : Channel)
    (hch : ch ∈ getChannelsData env) : ch.actionCount = ch.versions.length := by
  simp only [getChannelsData, List.mem_map] at hch
  obtain ⟨d, _hd, rfl⟩ := hch
  rfl

/-- Witness for C9 at a concrete aggregated Channel. -/
theorem c9_witness :
    sampleChannelB ∈ getChannelsData sampleEnv ∧
    sampleChannelB.actionCount = sampleChannelB.versions.length :=
  ⟨by decide, c9_actionCount_recomputed sampleEnv sampleChannelB (by decide)⟩

/-- C1: the aggregation returns exactly one Channel per DocumentRecord, in
input order, with the i-th Channel's id equal to the i-th document's id —
for any environment, hence regardless of metadata or version-history
availability.  The hypothesis states that every document carries a proper
(JS-truthy) id, as the data model requires. -/
theorem c1_one_channel_per_document (env : Env)
    (hids : ∀ d ∈ documentsOf env, d.id ≠ none ∧ d.id ≠ some "") :
    (getChannelsData env).length = (documentsOf env).length ∧
    ∀ i : Nat, ((getChannelsData env)[i]?).map Channel.id =
      ((documentsOf env)[i]?).bind DocumentRecord.id := by
  constructor
  · simp [getChannelsData]
  · intro i
    simp only [getChannelsData, List.getElem?_map]
    cases hd : (documentsOf env)[i]? with
    | none => rfl
    | some d =>
      have hmem : d ∈ documentsOf env := List.getElem?_mem hd
      obtain ⟨h1, h2⟩ := hids d hmem
      cases hid : d.id with
      | none => exact absurd hid h1
      | some s =>
        have hs : s ≠ "" := by
          intro h
          exact h2 (by rw [hid, h])
        simp [buildChannel, resolveDocId, jsStrOr, hid, hs]

/-- Witness for C1 on a concrete two-document environment. -/
theorem c1_witness :
    (∀ d ∈ documentsOf sampleEnv, d.id ≠ none ∧ d.id ≠ some "") ∧
    ((getChannelsData sampleEnv).length = (documentsOf sampleEnv).length ∧
     ∀ i : Nat, ((getChannelsData sampleEnv)[i]?).map Channel.id =
       ((documentsOf sampleEnv)[i]?).bind DocumentRecord.id) :=
  ⟨by decide, c1_one_channel_per_document sampleEnv (by decide)⟩

/-- C2: version-fetch failures are isolated per document.  If two
environments share the current time, document list and metadata list, and
their version fetches agree at document d's id, then the aggregated
Channel at d's position is identical — in particular a fetch failure for
any other document leaves it untouched.  A document whose own fetch fails
still gets a Channel, with an empty versions sequence and actionCount 0;
the aggregation is total, so the error is never surfaced. -/
theorem c2_version_fetch_isolation (env env2 : Env) (i : Nat) (d : DocumentRecord)
    (hnow : env2.now = env.now)
    (hdocs : env2.documentsResult = env.documentsResult)
    (hmeta : env2.metadataResult = env.metadataResult)
    (hd : (documentsOf env)[i]? = some d)
    (hagree : env2.versionHistoryResult (resolveDocId d) =
      env.versionHistoryResult (resolveDocId d)) :
    (getChannelsData env2)[i]? = (getChannelsData env)[i]? ∧
    ∀ e, env.versionHistoryResult (resolveDocId d) = Except.error e →
      ∃ ch, (getChannelsData env)[i]? = some ch ∧
        ch.versions = [] ∧ ch.actionCount = 0 := by
  have hdocs2 : documentsOf env2 = documentsOf env := by
    simp only [documentsOf, hdocs]
  have hmeta2 : metadataListOf env2 = metadataListOf env := by
    simp only [metadataListOf, hmeta]
  constructor
  · simp only [getChannelsData, List.getElem?_map, hdocs2, hmeta2, hnow, hd, Option.map_some]
    exact congrArg some (buildChannel_fetch_congr env.now _ d hagree)
  · intro e he
    refine ⟨buildChannel env.now (metadataMapOf (metadataListOf env))
      env.versionHistoryResult d, ?_, ?_, ?_⟩
    · simp only [getChannelsData, List.getElem?_map, hd, Option.map_some]
      rfl
    · simp only [buildChannel, versionsOf, he]
    · simp only [buildChannel, versionsOf, he]
      rfl

/-- Witness for C2: with the fetch for document A failing, document B's
Channel is unchanged, and A's Channel has no versions. -/
theorem c2_witness :
    ((getChannelsData sampleEnvAFails)[1]? = (getChannelsData sampleEnv)[1]?) ∧
    (∃ ch, (getChannelsData sampleEnvAFails)[0]? = some ch ∧
      ch.versions = [] ∧ ch.actionCount = 0) :=
  ⟨(c2_version_fetch_isolation sampleEnv sampleEnvAFails 1 sampleDocB
      rfl rfl rfl rfl rfl).1,
   (c2_version_fetch_isolation sampleEnvAFails sampleEnvAFails 0 sampleDocA
      rfl rfl rfl rfl rfl).2 "network down" rfl⟩

/-- C3: the Channel name follows the fallback order metadata override name
(when JS-truthy), then the document's own name (when JS-truthy), then the
placeholder "Document " followed by the first 8 characters of the id; and
when no MetadataRecord exists for the id, the name is resolved from the
document's own name with the placeholder fallback. -/
theorem c3_name_fallback_order (now : Int) (mm : String → Option MetadataRecord)
    (fetch : String → Except String VersionsResponse) (doc : DocumentRecord) :
    (∀ s, ((mm (resolveDocId doc)).getD emptyMetadata).name = some s → s ≠ "" →
      (buildChannel now mm fetch doc).name = s) ∧
    (jsStrOr ((mm (resolveDocId doc)).getD emptyMetadata).name "" = "" →
      ∀ t, doc.name = some t → t ≠ "" → (buildChannel now mm fetch doc).name = t) ∧
    (jsStrOr ((mm (resolveDocId doc)).getD emptyMetadata).name "" = "" →
      jsStrOr doc.name "" = "" →
      (buildChannel now mm fetch doc).name =
        "Document " ++ jsSubstringTo (resolveDocId doc) 8) ∧
    (mm (resolveDocId doc) = none →
      (buildChannel now mm fetch doc).name =
        jsStrOr doc.name ("Document " ++ jsSubstringTo (resolveDocId doc) 8)) := by
  refine ⟨?_, ?_, ?_, ?_⟩
  · intro s hs hne
    simp [buildChannel, hs, jsStrOr, hne]
  · intro hfalsy t ht hne
    have h1 : (buildChannel now mm fetch doc).name =
        jsStrOr doc.name ("Document " ++ jsSubstringTo (resolveDocId doc) 8) := by
      simp only [buildChannel]
      exact jsStrOr_falsy hfalsy _
    rw [h1, ht]
    simp [jsStrOr, hne]
  · intro hfalsy1 hfalsy2
    have h1 : (buildChannel now mm fetch doc).name =
        jsStrOr doc.name ("Document " ++ jsSubstringTo (resolveDocId doc) 8) := by
      simp only [buildChannel]
      exact jsStrOr_falsy hfalsy1 _
    rw [h1]
    exact jsStrOr_falsy hfalsy2 _
  · intro hnone
    simp [buildChannel, hnone, emptyMetadata, jsStrOr]

/-- Witness for C3: the metadata override wins for document A, and
document B, which has no metadata record, falls back to its own name and
then the placeholder. -/
theorem c3_witness :
    (buildChannel 0 (metadataMapOf [sampleMetaA]) sampleFetchOk sampleDocA).name =
      "Alpha Override" ∧
    (buildChannel 0 (metadataMapOf [sampleMetaA]) sampleFetchOk sampleDocB).name =
      jsStrOr sampleDocB.name ("Document " ++ jsSubstringTo (resolveDocId sampleDocB) 8) :=
  ⟨(c3_name_fallback_order 0 (metadataMapOf [sampleMetaA]) sampleFetchOk sampleDocA).1
      "Alpha Override" (by decide) (by decide),
   (c3_name_fallback_order 0 (metadataMapOf [sampleMetaA]) sampleFetchOk sampleDocB).2.2.2
      (by decide)⟩

/-- C4 counterexample: with tags ["slack:A", "slack:B"] two tags begin
with the reserved prefix, not exactly one, yet the derived slackChannelId
is the non-empty string "A" — so "non-empty only if exactly one tag begins
with the prefix" is false of the code, which simply takes the first
match. -/
theorem c4_counterexample :
    slackChannelIdOf sampleMetaTwoSlack = "A" ∧
    slackChannelIdOf sampleMetaTwoSlack ≠ "" ∧
    ((sampleMetaTwoSlack.tags.getD []).countP (fun t => jsStartsWith t "slack:")) = 2 :=
  ⟨by decide, by decide, by decide⟩

/-- C4 amended: the derived slackChannelId is non-empty only if at least
one tag begins with the prefix "slack:"; when several do, the first found
is chosen and the first occurrence of the prefix is removed; a tag list
with no matching entry, or no metadata at all, yields the empty
string. -/
theorem c4_slack_tag_amended (m : MetadataRecord) :
    (slackChannelIdOf m ≠ "" →
      ∃ ts, m.tags = some ts ∧ 1 ≤ ts.countP (fun t => jsStartsWith t "slack:")) ∧
    (∀ ts t, m.tags = some ts →
      ts.find? (fun u => jsStartsWith u "slack:") = some t →
      slackChannelIdOf m = jsReplaceFirst t "slack:" "") ∧
    (∀ ts, m.tags = some ts → (∀ t ∈ ts, jsStartsWith t "slack:" = false) →
      slackChannelIdOf m = "") ∧
    (m.tags = none → slackChannelIdOf m = "") := by
  refine ⟨?_, ?_, ?_, ?_⟩
  · intro hne
    cases htags : m.tags with
    | none => simp [slackChannelIdOf, htags] at hne
    | some ts =>
      refine ⟨ts, rfl, ?_⟩
      simp only [slackChannelIdOf, htags] at hne
      cases hfind : ts.find? (fun u => jsStartsWith u "slack:") with
      | none => rw [hfind] at hne; simp at hne
      | some t =>
        have hp := List.find?_some hfind
        have hmem := List.mem_of_find?_eq_some hfind
        have hpos : 0 < ts.countP (fun u => jsStartsWith u "slack:") :=
          List.countP_pos_iff.mpr ⟨t, hmem, hp⟩
        omega
  · intro ts t htags hfind
    simp [slackChannelIdOf, htags, hfind]
  · intro ts htags hall
    have hnone : ts.find? (fun u => jsStartsWith u "slack:") = none :=
      List.find?_eq_none.mpr (fun x hx => by simp [hall x hx])
    simp [slackChannelIdOf, htags, hnone]
  · intro htags
    simp [slackChannelIdOf, htags]

/-- Witness for the amended C4: tags ["x", "slack:C123", "y"] yield
"C123", and a tag list with no matching entry yields the empty string. -/
theorem c4_witness :
    slackChannelIdOf sampleMetaA = jsReplaceFirst "slack:C123" "slack:" "" ∧
    jsReplaceFirst "slack:C123" "slack:" "" = "C123" ∧
    slackChannelIdOf sampleMetaNoSlack = "" :=
  ⟨(c4_slack_tag_amended sampleMetaA).2.1 ["x", "slack:C123", "y"] "slack:C123"
      rfl (by decide),
   by decide,
   (c4_slack_tag_amended sampleMetaNoSlack).2.2.1 ["x", "y"] rfl (by decide)⟩

/-- C8: the history view is a pure derivation over the Channel collection:
with a filter whose matching Channels have no versions the derived list is
empty; with no filter it is a permutation of the flattened version entries
of all Channels, each tagged with its owning document id and name, and it
is sorted descending by timestamp. -/
theorem c8_history_view_derivation (documents : List Channel) (fid : String)
    (hzero : ∀ doc ∈ documents, doc.id = fid → doc.versions = []) :
    historyView documents (some fid) = [] ∧
    List.Perm (historyView documents none)
      (documents.flatMap (fun doc => doc.versions.map (tagVersion doc))) ∧
    List.Pairwise (fun a b => b.timestamp ≤ a.timestamp)
      (historyView documents none) := by
  refine ⟨?_, ?_, ?_⟩
  · have hflat : (documents.filter (fun (doc : Channel) => doc.id == fid)).flatMap
        (fun doc => doc.versions.map (tagVersion doc)) = [] := by
      rw [List.flatMap_eq_nil_iff]
      intro doc hdoc
      rw [List.mem_filter] at hdoc
      have hv : doc.versions = [] := hzero doc hdoc.1 (by simpa using hdoc.2)
      rw [hv]
      rfl
    simp only [historyView, hflat, List.mergeSort_nil]
  · simp only [historyView]
    exact List.mergeSort_perm _ _
  · simp only [historyView]
    have hs := @List.sorted_mergeSort HistoryEntry historyDescLe
      (fun a b c hab hbc => by
        simp only [historyDescLe, decide_eq_true_eq] at hab hbc ⊢
        omega)
      (fun a b => by
        simp only [historyDescLe, Bool.or_eq_true, decide_eq_true_eq]
        omega)
      (documents.flatMap (fun doc => doc.versions.map (tagVersion doc)))
    exact hs.imp (fun h => by simpa [historyDescLe] using h)

/-- Witness for C8 on the specification's end-to-end scenario: one Channel
with three versions and one with zero; the filtered view on the
zero-version document is empty, the unfiltered view is a sorted
permutation of the three tagged entries. -/
theorem c8_witness :
    historyView [sampleChannelHist1, sampleChannelHist2] (some "h2") = [] ∧
    List.Perm (historyView [sampleChannelHist1, sampleChannelHist2] none)
      ([sampleChannelHist1, sampleChannelHist2].flatMap
        (fun doc => doc.versions.map (tagVersion doc))) ∧
    List.Pairwise (fun a b => b.timestamp ≤ a.timestamp)
      (historyView [sampleChannelHist1, sampleChannelHist2] none) :=
  c8_history_view_derivation [sampleChannelHist1, sampleChannelHist2] "h2" (by decide)

end Epimetheus
